import Mathlib

/-!
Verification development for the Instagram handle-discovery engine
(`extract_instagram_enhanced.py`).  Strings are modelled as `List Char`
(Python `str`); machine-level HTML parsing (BeautifulSoup) is modelled by a
`PageDoc` structure carrying exactly the data the scanner consumes, and the
HTTP session is a function from URL to an optional response.  All regular
expressions of the source are specific enough to be translated into direct
scanning functions, which is done pattern by pattern below.
-/

namespace Insta

/-- ASCII lowercasing, as Python `str.lower` acts on the ASCII range (all
characters handled by the source's patterns are ASCII). -/
def pyLower (c : Char) : Char :=
  if c.toNat ≥ 65 ∧ c.toNat ≤ 90 then Char.ofNat (c.toNat + 32) else c

/-- Lowercase a whole string, modelling `str.lower()`. -/
def lowerL (l : List Char) : List Char := l.map pyLower

/-- The ASCII fragment of Python's `\s` / `str.strip` whitespace. -/
def isPySpace (c : Char) : Bool :=
  c = ' ' || c = '\t' || c = '\n' || c = '\r' || c = '\x0b' || c = '\x0c'

/-- The character class `[a-zA-Z0-9_.]` used throughout the source. -/
def isAllowed (c : Char) : Bool :=
  c.isAlphanum || c = '_' || c = '.'

/-- Python `str.strip()` (both ends, default whitespace). -/
def pyStrip (l : List Char) : List Char :=
  ((l.dropWhile isPySpace).reverse.dropWhile isPySpace).reverse

/-- Boolean substring test: `pat` occurs contiguously in the second list,
modelling Python's `in` / `re.search` of a literal pattern. -/
def containsSub (pat : List Char) : List Char → Bool
  | [] => pat.isEmpty
  | c :: tail => pat.isPrefixOf (c :: tail) || containsSub pat tail

/-- `startsWithL p l` models Python `l.startswith(p)`. -/
def startsWithL (p : String) (l : List Char) : Bool := p.data.isPrefixOf l

/-- `endsWithL p l` models Python `l.endswith(p)`. -/
def endsWithL (p : String) (l : List Char) : Bool := p.data.isSuffixOf l

/-- Strip trailing `'/'` characters, modelling Python `rstrip('/')`. -/
def rstripSlash (l : List Char) : List Char :=
  (l.reverse.dropWhile (fun c => c = '/')).reverse

/-- The substring denylist of `invalid_patterns` (lines 64-91 of the source):
every entry there is, as a regex, equivalent to a literal-substring test
(`\.com(?:\.br)?` matches iff `.com` occurs), except `\s+` which is kept as a
separate whitespace test in the validator below. -/
def invalidSubs : List String :=
  [".com", "gmail", "google", "outlook", "hotmail", "yahoo", "email",
   "contact", "contato", "info", "admin", "web", "site", "www", "http",
   "https", "mailto:", "@gmail.com", "@hotmail.com", "@outlook.com",
   "@yahoo.com", "?", "&", "=", "%"]

/-- `_is_valid_instagram_username` (source lines 178-227): denylist scan on the
lowercased candidate, email-shape test, URL-prefix test, length bound, and the
final full-match against `^[a-zA-Z0-9_.]+$`. -/
def is_valid_instagram_username (u : List Char) : Bool :=
  let ul := lowerL u
  if (invalidSubs.any fun p => containsSub p.data ul) || ul.any isPySpace then
    false
  else if ('@' ∈ u) &&
      (endsWithL ".com" u || endsWithL ".com.br" u ||
       endsWithL ".org" u || endsWithL ".net" u) then
    false
  else if startsWithL "http://" u || startsWithL "https://" u ||
      startsWithL "www." u then
    false
  else if u.length > 30 then
    false
  else if !(!u.isEmpty && u.all isAllowed) then
    false
  else
    true

/-- Drop a literal from the front of a string, comparing case-insensitively;
`none` when the literal is not a (case-insensitive) prefix.  The literal is
given lowercased. -/
def ciDrop : List Char → List Char → Option (List Char)
  | [], s => some s
  | _ :: _, [] => none
  | p :: ps, c :: cs => if pyLower c = p then ciDrop ps cs else none

/-- Greedy capture of at most `n` leading `[a-zA-Z0-9_.]` characters, the
behaviour of the `{1,30}` quantifier of the source's capture groups. -/
def takeAllowed : Nat → List Char → List Char
  | 0, _ => []
  | _, [] => []
  | n + 1, c :: cs => if isAllowed c then c :: takeAllowed n cs else []

/-- `re.search` of `lit` followed by a capture `([a-zA-Z0-9_.]{1,30})`,
case-insensitive, returning the leftmost capture (original case preserved, as
`re.IGNORECASE` affects matching only).  Models patterns such as
`instagram\.com/([a-zA-Z0-9_.]{1,30})`. -/
def searchLitCapture (lit : List Char) : List Char → Option (List Char)
  | [] => none
  | c :: tail =>
    match ciDrop lit (c :: tail) with
    | some r =>
      let cap := takeAllowed 30 r
      if cap.isEmpty then searchLitCapture lit tail else some cap
    | none => searchLitCapture lit tail

/-- Match `https?://(?:www\.)?instagram\.com/([a-zA-Z0-9_.]{1,30})/?` at the
head of the string.  When `www.` is present but `instagram.com/` does not
follow, regex backtracking to the `www.`-less branch also fails (the position
then starts with `w`, not `i`), so no separate backtracking is needed. -/
def matchSchemeAt (s : List Char) : Option (List Char) :=
  match ciDrop "http".data s with
  | none => none
  | some r1 =>
    let tryRest : List Char → Option (List Char) := fun r =>
      match ciDrop "://".data r with
      | none => none
      | some r2 =>
        let r3 := (ciDrop "www.".data r2).getD r2
        match ciDrop "instagram.com/".data r3 with
        | some r4 =>
          let cap := takeAllowed 30 r4
          if cap.isEmpty then none else some cap
        | none => none
    match ciDrop "s".data r1 with
    | some r1s =>
      match tryRest r1s with
      | some cap => some cap
      | none => tryRest r1
    | none => tryRest r1

/-- `re.search` of the scheme-anchored third pattern of
`instagram_patterns`. -/
def searchScheme : List Char → Option (List Char)
  | [] => none
  | c :: tail =>
    match matchSchemeAt (c :: tail) with
    | some cap => some cap
    | none => searchScheme tail

/-- Match `/([a-zA-Z0-9_.]{1,30})/?(?:\?.*)?$` at the head: a slash, a
nonempty run of at most 30 allowed characters, then an optional slash and an
optional query, reaching the end of the string.  Greedy matching with
backtracking reduces to: the full run after the slash is captured, and the
remainder must be empty, start with `?`, or be a single `/` optionally
followed by a `?`-query. -/
def matchTailSegAt : List Char → Option (List Char)
  | [] => none
  | c :: r =>
    if c = '/' then
      let run := r.takeWhile isAllowed
      if !run.isEmpty && run.length ≤ 30 then
        let rem := r.drop run.length
        match rem with
        | [] => some run
        | '?' :: _ => some run
        | '/' :: rem2 =>
          match rem2 with
          | [] => some run
          | '?' :: _ => some run
          | _ => none
        | _ => none
      else none
    else none

/-- `re.search` of the trailing-path-segment fourth pattern of
`instagram_patterns`. -/
def searchTailSeg : List Char → Option (List Char)
  | [] => none
  | c :: tail =>
    match matchTailSegAt (c :: tail) with
    | some cap => some cap
    | none => searchTailSeg tail

/-- The reserved path segments rejected by `_extract_username_from_url`. -/
def reservedSegs : List (List Char) :=
  ["p".data, "explore".data, "directory".data, "accounts".data,
   "reels".data, "stories".data]

/-- The post-capture cleanup of `_extract_username_from_url`:
`split('?')[0]`, `split('#')[0]`, `rstrip('/')`. -/
def cleanCapture (u : List Char) : List Char :=
  rstripSlash ((u.takeWhile fun c => c ≠ '?').takeWhile fun c => c ≠ '#')

/-- Per-pattern step of `_extract_username_from_url`: clean the capture and
fall through to the next pattern when it is a reserved segment. -/
def acceptCapture (r : Option (List Char)) : Option (List Char) :=
  match r with
  | none => none
  | some cap =>
    let u := cleanCapture cap
    if lowerL u ∈ reservedSegs then none else some u

/-- `_extract_username_from_url` (source lines 268-283): the four patterns of
`instagram_patterns` tried in order, each with cleanup and the reserved-page
rejection that falls through to the next pattern. -/
def extract_username_from_url (url : List Char) : Option (List Char) :=
  match acceptCapture (searchLitCapture "instagram.com/".data url) with
  | some u => some u
  | none =>
  match acceptCapture (searchLitCapture "instagr.am/".data url) with
  | some u => some u
  | none =>
  match acceptCapture (searchScheme url) with
  | some u => some u
  | none => acceptCapture (searchTailSeg url)

/-- `@([a-zA-Z0-9_.]{1,30})(?![a-zA-Z0-9_.])`: an `@` followed by a run of
allowed characters; the negative lookahead forces the whole run to be
captured, so the match fails when the run is empty or longer than 30 and the
scan resumes at the next position. -/
def atHandle : List Char → Option (List Char)
  | [] => none
  | c :: r =>
    if c = '@' then
      let run := r.takeWhile isAllowed
      if !run.isEmpty && run.length ≤ 30 then some run else atHandle r
    else atHandle r

/-- Match `lab @?([a-zA-Z0-9_.]{1,30})` at the head (label given lowercased,
e.g. `"ig: "`).  When an `@` is consumed but no allowed character follows,
the `@`-less alternative also fails (the position holds the `@` itself), so
the single greedy branch is faithful. -/
def labelAt (lab : List Char) (s : List Char) : Option (List Char) :=
  match ciDrop lab s with
  | none => none
  | some r =>
    let r2 := if r.head? = some '@' then r.tail else r
    let cap := takeAllowed 30 r2
    if cap.isEmpty then none else some cap

/-- `re.search` of a labelled-handle pattern such as
`ig: @?([a-zA-Z0-9_.]{1,30})` (case-insensitive). -/
def labelHandle (lab : List Char) : List Char → Option (List Char)
  | [] => none
  | c :: tail =>
    match labelAt lab (c :: tail) with
    | some cap => some cap
    | none => labelHandle lab tail

/-- The per-match filter of `_extract_username_from_text`:
`re.match(r'^[a-zA-Z0-9_.]{1,30}$', username)` after `strip()`.  Every
capture produced by the six patterns already satisfies it (captures are 1-30
characters of the class), so applying it to the first match is faithful. -/
def basicHandleOk (u : List Char) : Bool :=
  !u.isEmpty && u.length ≤ 30 && u.all isAllowed

/-- Apply the basic-format filter to a pattern's first match. -/
def chkText (r : Option (List Char)) : Option (List Char) :=
  match r with
  | none => none
  | some u => if basicHandleOk u then some u else none

/-- `_extract_username_from_text` (source lines 285-307): the six text
patterns tried in order, first satisfying match wins. -/
def extract_username_from_text (text : List Char) : Option (List Char) :=
  match chkText (atHandle text) with
  | some u => some u
  | none =>
  match chkText (searchLitCapture "instagram.com/".data text) with
  | some u => some u
  | none =>
  match chkText (searchLitCapture "instagr.am/".data text) with
  | some u => some u
  | none =>
  match chkText (labelHandle "ig: ".data text) with
  | some u => some u
  | none =>
  match chkText (labelHandle "instagram: ".data text) with
  | some u => some u
  | none => chkText (labelHandle "insta: ".data text)

/-- `_is_direct_instagram_url` (source lines 229-242): the three patterns are
a substring test for `instagram.com`, one for `instagr.am`, and a full-string
match of `^@[a-zA-Z0-9_.]+$`, all on the lowercased URL. -/
def is_direct_instagram_url (url : List Char) : Bool :=
  let l := lowerL url
  containsSub "instagram.com".data l || containsSub "instagr.am".data l ||
    (match l with
     | '@' :: r => !r.isEmpty && r.all isAllowed
     | _ => false)

/-- First whitespace-delimited token, modelling `s.split()[0]` (on the inputs
reaching it the token is nonempty; Python would raise on an all-whitespace
string, which the gating `_is_direct_instagram_url` check rules out). -/
def firstToken (l : List Char) : List Char :=
  (l.dropWhile isPySpace).takeWhile fun c => !isPySpace c

/-- The scheme-completion step of `_normalize_instagram_url` (source lines
253-259): tests on the lowercased URL, concatenation onto the original. -/
def completeScheme (url : List Char) : List Char :=
  if startsWithL "//" (lowerL url) then "https:".data ++ url
  else if startsWithL "/" (lowerL url) then "https://www.instagram.com".data ++ url
  else if !startsWithL "http" (lowerL url) then "https://".data ++ url
  else url

/-- `_normalize_instagram_url` (source lines 244-266): `@handle` rewriting
(note the source builds it from the lowercased string), scheme completion,
and query stripping that removes the trailing slash only when a `?` was
present. -/
def normalize_instagram_url (url : List Char) : List Char :=
  let ul := lowerL url
  if ul.head? = some '@' then
    "https://www.instagram.com/".data ++ firstToken ul.tail ++ "/".data
  else
    let url1 := completeScheme url
    if '?' ∈ url1 then rstripSlash (url1.takeWhile fun c => c ≠ '?')
    else url1

/-- An anchor element as the scanner consumes it: its `href` attribute and its
`get_text(strip=True)` text (`soup.find_all('a', href=True)` yields exactly
the anchors carrying an `href`). -/
structure Anchor where
  href : List Char
  text : List Char
deriving DecidableEq

/-- A meta element as the scanner consumes it: its `content` attribute
(`meta.get('content', '')`) and its `property` attribute (used in notes). -/
structure MetaTag where
  content : List Char
  property : String
deriving DecidableEq

/-- The parsed page: the data `_find_instagram_in_page` and `_extract_links`
read from the BeautifulSoup document.  `select` models `soup.select`, giving
the `get_text()` of each element matched by a CSS selector; HTML parsing
itself is the external collaborator and is not modelled. -/
structure PageDoc where
  anchors : List Anchor
  pageText : List Char
  metas : List MetaTag
  select : String → List (List Char)

/-- A found-handle record as built inside `_find_instagram_in_page`. -/
structure FoundInfo where
  url : String
  username : List Char
  status : String
  notes : String
deriving DecidableEq

/-- The record shape shared by stages 2-5 of `_find_instagram_in_page`: the
URL is the f-string `https://www.instagram.com/{username}/`. -/
def canonInfo (u : List Char) (status notes : String) : FoundInfo :=
  ⟨"https://www.instagram.com/" ++ String.mk u ++ "/", u, status, notes⟩

/-- The scheme of `urllib.parse.urlparse` restricted to the http(s) URLs the
crawler produces. -/
def schemeOf (url : List Char) : List Char :=
  if startsWithL "http://" url then "http".data
  else if startsWithL "https://" url then "https".data
  else []

/-- The netloc of `urllib.parse.urlparse` restricted to the URL shapes the
crawler produces (absolute http(s) or scheme-relative). -/
def netlocOf (url : List Char) : List Char :=
  let host : List Char → List Char := fun r =>
    r.takeWhile fun c => c ≠ '/' && c ≠ '?' && c ≠ '#'
  if startsWithL "http://" url then host (url.drop 7)
  else if startsWithL "https://" url then host (url.drop 8)
  else if startsWithL "//" url then host (url.drop 2)
  else []

/-- Modelled from the spec: `resolveUrl`'s fallback "all other relative forms
are resolved against `baseUrl` using standard relative-URL resolution"
(`urllib.parse.urljoin`, an external library call).  Simplified merge:
replace everything after the last slash of the base's path; no dot-segment
normalisation.  No claim exercises this branch. -/
def urljoinApprox (base rel : List Char) : List Char :=
  let sch := schemeOf base
  if sch.isEmpty then rel
  else
    let afterScheme := base.drop (sch.length + 3)
    let netloc := afterScheme.takeWhile fun c => c ≠ '/'
    let path := afterScheme.drop netloc.length
    let dir := (path.reverse.dropWhile fun c => c ≠ '/').reverse
    let dir2 := if dir.isEmpty then "/".data else dir
    sch ++ "://".data ++ netloc ++ dir2 ++ rel

/-- `_normalize_url` (source lines 515-525): absolute URLs pass through,
scheme-relative URLs get `https:`, root-relative paths are joined to the
base's scheme and netloc, and everything else goes through `urljoin`. -/
def normalize_url (url baseUrl : List Char) : List Char :=
  if startsWithL "http://" url || startsWithL "https://" url then url
  else if startsWithL "//" url then "https:".data ++ url
  else if startsWithL "/" url then
    schemeOf baseUrl ++ "://".data ++ netlocOf baseUrl ++ url
  else urljoinApprox baseUrl url

/-- Stage 1 of `_find_instagram_in_page` for one anchor (source lines
396-406): the stripped href checked as a direct Instagram link. -/
def anchorHrefHit (pageUrl : List Char) (a : Anchor) : Option FoundInfo :=
  let href := pyStrip a.href
  if is_direct_instagram_url href then
    let nu := normalize_url href pageUrl
    match extract_username_from_url nu with
    | some u =>
      if is_valid_instagram_username u then
        some ⟨String.mk nu, u, "found_in_site", "Encontrado em link na página"⟩
      else none
    | none => none
  else none

/-- The per-anchor body of stage 1 and stage 2 of `_find_instagram_in_page`
(source lines 393-417): the href is checked as a direct Instagram link, then
the anchor text goes through text extraction. -/
def scanAnchors (pageUrl : List Char) : List Anchor → Option FoundInfo
  | [] => none
  | a :: rest =>
    match anchorHrefHit pageUrl a with
    | some i => some i
    | none =>
      match extract_username_from_text a.text with
      | some u =>
        if is_valid_instagram_username u then
          some (canonInfo u "found_in_link_text"
            ("Encontrado no texto do link: \"" ++ String.mk a.text ++ "\""))
        else scanAnchors pageUrl rest
      | none => scanAnchors pageUrl rest

/-- Stage 3 of `_find_instagram_in_page` (source lines 419-428): the full
page text. -/
def scanPageText (t : List Char) : Option FoundInfo :=
  match extract_username_from_text t with
  | some u =>
    if is_valid_instagram_username u then
      some (canonInfo u "found_in_page_text" "Encontrado no texto da página")
    else none
  | none => none

/-- Stage 4 of `_find_instagram_in_page` (source lines 430-441): meta tag
contents. -/
def scanMetas : List MetaTag → Option FoundInfo
  | [] => none
  | m :: rest =>
    if !m.content.isEmpty then
      match extract_username_from_text m.content with
      | some u =>
        if is_valid_instagram_username u then
          some (canonInfo u "found_in_meta_tag"
            ("Encontrado em meta tag: " ++ m.property))
        else scanMetas rest
      | none => scanMetas rest
    else scanMetas rest

/-- The fixed ordered selector table of stage 5 (source lines 444-471),
verbatim including its duplicates. -/
def social_selectors : List String :=
  [".social-links", ".social-icons", ".social-media",
   ".instagram", "[class*=\"instagram\"]", "[id*=\"instagram\"]",
   ".follow-us", ".social", ".share", ".connect",
   ".instagram", "#instagram", "a.instagram", "a[href*=\"instagram.com\"]",
   "[class*=\"insta\"]", "[id*=\"insta\"]",
   "[class*=\"ig-\"]", "[id*=\"ig-\"]", "[class*=\"ig_\"]", "[id*=\"ig_\"]",
   ".social-instagram", ".social__instagram", ".social-link--instagram",
   ".social-icons .instagram", ".social-links .instagram",
   ".follow-instagram", ".follow__instagram", ".follow--instagram",
   ".icon-instagram", ".icon__instagram", ".fa-instagram", ".bi-instagram",
   "[class*=\"icon-insta\"]", "[class*=\"icon-ig\"]", "[class*=\"fa-instagram\"]",
   ".social", ".social-links", ".social-icons", ".follow-us", ".footer-social",
   "a[href*=\"instagram.com\"]",
   "a[title*=\"instagram\"]", "a[aria-label*=\"instagram\"]",
   "a[data-label*=\"instagram\"]", "a[data-social*=\"instagram\"]",
   "[class*=\"instagram-feed\"]", "[id*=\"instagram-feed\"]",
   "[class*=\"insta-feed\"]", "[id*=\"insta-feed\"]",
   "[class*=\"insta-gallery\"]", "[id*=\"insta-gallery\"]",
   "[class*=\"instagram-gallery\"]", "[id*=\"instagram-gallery\"]",
   "[class*=\"instagram-posts\"]", "[id*=\"instagram-posts\"]",
   "[class*=\"elfsight-app\"]", "[data-elfsight-app-lazy*=\"instagram\"]",
   "[data-instagram]", "[data-insta]", "[data-feed*=\"instagram\"]",
   "[class*=\"wp-block-instagram\"]", "[class*=\"elementor-instagram\"]",
   "[class*=\"shopify-section-instagram\"]", "[class*=\"sqs-block-instagram\"]",
   "a[href*=\"instagram.com\"][target]", "a.button[href*=\"instagram\"]",
   "a.btn[href*=\"instagram\"]", "a.link[href*=\"instagram\"]"]

/-- Inner loop of stage 5: the elements matched by one selector. -/
def scanElems (sel : String) : List (List Char) → Option FoundInfo
  | [] => none
  | t :: rest =>
    match extract_username_from_text t with
    | some u =>
      if is_valid_instagram_username u then
        some (canonInfo u "found_in_social_section"
          ("Encontrado na seção: " ++ sel))
      else scanElems sel rest
    | none => scanElems sel rest

/-- Outer loop of stage 5 over the selector table. -/
def scanSelectors (doc : PageDoc) : List String → Option FoundInfo
  | [] => none
  | sel :: rest =>
    match scanElems sel (doc.select sel) with
    | some i => some i
    | none => scanSelectors doc rest

/-- `_find_instagram_in_page` (source lines 379-486): the five-stage
extraction cascade. -/
def findInstagramInPage (doc : PageDoc) (pageUrl : List Char) : Option FoundInfo :=
  match scanAnchors pageUrl doc.anchors with
  | some i => some i
  | none =>
  match scanPageText doc.pageText with
  | some i => some i
  | none =>
  match scanMetas doc.metas with
  | some i => some i
  | none => scanSelectors doc social_selectors

/-- `_extract_links` (source lines 488-513): harvest anchor hrefs, skip
fragment/javascript/mailto/tel links, normalise, keep same-domain results
(`base_domain in url_domain` is a substring test), and de-duplicate.  The
source collects into a Python `set` whose iteration order is unspecified;
the model keeps first-occurrence order. -/
def extract_links (doc : PageDoc) (baseUrl : List Char) : List (List Char) :=
  let collected := doc.anchors.filterMap fun a =>
    let href := pyStrip a.href
    if href.isEmpty || startsWithL "#" href || startsWithL "javascript:" href
        || startsWithL "mailto:" href || startsWithL "tel:" href then
      none
    else
      let full := normalize_url href baseUrl
      let baseDomain := netlocOf baseUrl
      let urlDomain := netlocOf full
      if !baseDomain.isEmpty && !urlDomain.isEmpty
          && containsSub baseDomain urlDomain then
        some full
      else none
  collected.eraseDups

/-- A fetch response: `(status_code, final URL after redirects, parsed
body)`.  The HTTP session is modelled as a function from URL to
`Option Response`; `none` is a raised `requests` exception (timeout,
connection error), which the crawl loop swallows per URL. -/
structure Response where
  statusCode : Nat
  finalUrl : List Char
  doc : PageDoc

/-- What the crawler returns to the engine when a handle is found:
the record plus `pages_scanned` and `found_on_page` (source lines 358-361). -/
structure CrawlHit where
  info : FoundInfo
  pages_scanned : Nat
  found_on_page : String
deriving DecidableEq

/-- Result of running the crawl loop.  `hit` is the source's return value;
`fetches` (every URL passed to `session.get`), `scans` (every URL counted in
`pages_scanned` and added to `visited`) and `enqueued` (every frontier entry
appended during the run) are ghost instrumentation recording what the loop
did, used to state the session invariants. -/
structure CrawlRun where
  hit : Option CrawlHit
  fetches : List (List Char)
  scans : List (List Char)
  enqueued : List (List Char × Nat)
deriving DecidableEq

/-- The `while` loop of `_crawl_site_for_instagram` (source lines 328-377),
as fuel-indexed recursion: pop the frontier head; skip visited URLs and
entries deeper than `max_depth`; a failed fetch (exception or non-200) is
skipped — note a non-200 URL is *not* added to `visited`; a 200 response is
counted, visited, scanned, and when nothing is found its same-domain links
are enqueued at depth+1 provided `depth < max_depth`. -/
def crawlLoop (maxDepth maxPages : Nat) (world : List Char → Option Response) :
    Nat → List (List Char × Nat) → List (List Char) → Nat → CrawlRun
  | 0, _, _, _ => ⟨none, [], [], []⟩
  | _ + 1, [], _, _ => ⟨none, [], [], []⟩
  | fuel + 1, (u, d) :: rest, visited, n =>
    if maxPages ≤ n then ⟨none, [], [], []⟩
    else if u ∈ visited then crawlLoop maxDepth maxPages world fuel rest visited n
    else if maxDepth < d then crawlLoop maxDepth maxPages world fuel rest visited n
    else
      match world u with
      | none =>
        let r := crawlLoop maxDepth maxPages world fuel rest visited n
        ⟨r.hit, u :: r.fetches, r.scans, r.enqueued⟩
      | some resp =>
        if resp.statusCode = 200 then
          match findInstagramInPage resp.doc resp.finalUrl with
          | some inf => ⟨some ⟨inf, n + 1, String.mk resp.finalUrl⟩, [u], [u], []⟩
          | none =>
            let enq :=
              if d < maxDepth then
                ((extract_links resp.doc resp.finalUrl).filter fun l =>
                    decide (l ∉ u :: visited)).map fun l => (l, d + 1)
              else []
            let r := crawlLoop maxDepth maxPages world fuel (rest ++ enq) (u :: visited) (n + 1)
            ⟨r.hit, u :: r.fetches, u :: r.scans, enq ++ r.enqueued⟩
        else
          let r := crawlLoop maxDepth maxPages world fuel rest visited n
          ⟨r.hit, u :: r.fetches, r.scans, r.enqueued⟩

/-- The start-URL completion of `_crawl_site_for_instagram`
(source lines 322-323). -/
def prefixHttp (s : List Char) : List Char :=
  if startsWithL "http://" s || startsWithL "https://" s then s
  else "http://".data ++ s

/-- `_crawl_site_for_instagram` (source lines 309-377): fresh visited set,
frontier seeded with the completed start URL at depth 0. -/
def crawl_site_for_instagram (maxDepth maxPages : Nat)
    (world : List Char → Option Response) (fuel : Nat)
    (start_url : List Char) : CrawlRun :=
  crawlLoop maxDepth maxPages world fuel [(prefixHttp start_url, 0)] [] 0

/-- The per-input output record (`result` dict of
`extract_instagram_info`). -/
structure DiscoveryOutcome where
  original_url : String
  instagram_url : String
  instagram_username : String
  status : String
  notes : String
  pages_scanned : Nat
  found_on_page : String
deriving DecidableEq

/-- The whitespace removal applied to the input before every extraction step
(source lines 117-120: `strip()` then `re.sub(r'\s+', '')`). -/
def wsClean (url : String) : List Char :=
  (pyStrip url.data).filter fun c => !isPySpace c

/-- `extract_instagram_info` (source lines 93-176): the discovery cascade.
The `result` dict starts with `status = 'no_instagram'`, which survives when
a direct Instagram URL yields no extractable username.  The source's step 3
`try/except` catches exceptions raised by the crawl; in this model the crawl
is total (fetch failures are values), so the `crawl_error` branch has no
realisation.  `pd.isna` concerns spreadsheet cells and is subsumed here by
the blank test on a string input.  The text-extraction step's truthiness test
(`if username_from_text:`) coincides with the `Option` match because every
extracted candidate is nonempty. -/
def extract_instagram_info (maxDepth maxPages : Nat)
    (world : List Char → Option Response) (fuel : Nat)
    (url : String) : DiscoveryOutcome :=
  let base : DiscoveryOutcome := ⟨url, "", "", "no_instagram", "", 0, ""⟩
  if (pyStrip url.data).isEmpty then { base with status := "empty" }
  else
    let us := wsClean url
    if is_direct_instagram_url us then
      let normalized := normalize_instagram_url us
      match extract_username_from_url normalized with
      | some u =>
        if is_valid_instagram_username u then
          { base with
              instagram_url := String.mk normalized
              instagram_username := String.mk u
              status := "found_direct"
              notes := "Link direto do Instagram" }
        else
          { base with
              instagram_url := String.mk normalized
              status := "invalid_username"
              notes := "Nome de usuário inválido: " ++ String.mk u }
      | none => { base with instagram_url := String.mk normalized }
    else
      match extract_username_from_text us with
      | some u =>
        if is_valid_instagram_username u then
          { base with
              instagram_username := String.mk u
              instagram_url := "https://www.instagram.com/" ++ String.mk u ++ "/"
              status := "found_from_text"
              notes := "Extraído de texto com @" }
        else
          { base with
              status := "invalid_username_from_text"
              notes := "Nome de usuário inválido extraído de texto: " ++ String.mk u }
      | none =>
        match (crawl_site_for_instagram maxDepth maxPages world fuel us).hit with
        | some ch =>
          if is_valid_instagram_username ch.info.username then
            { base with
                instagram_url := ch.info.url
                instagram_username := String.mk ch.info.username
                status := ch.info.status
                notes := ch.info.notes
                pages_scanned := ch.pages_scanned
                found_on_page := ch.found_on_page }
          else
            { base with
                status := "invalid_username_crawled"
                notes := "Nome de usuário inválido encontrado: " ++ String.mk ch.info.username
                pages_scanned := ch.pages_scanned }
        | none =>
          { base with
              status := "not_found_after_scan"
              notes := "Varridas 0 páginas, Instagram não encontrado" }

/-- The closed `StatusCode` enum of the specification. -/
def statusCodes : List String :=
  ["empty", "found_direct", "found_from_text", "found_in_site",
   "found_in_link_text", "found_in_page_text", "found_in_meta_tag",
   "found_in_social_section", "invalid_username",
   "invalid_username_from_text", "invalid_username_crawled",
   "not_found_after_scan", "crawl_error"]

/-- The `found_*` statuses of the specification's username invariant. -/
def foundStatuses : List String :=
  ["found_direct", "found_from_text", "found_in_site", "found_in_link_text",
   "found_in_page_text", "found_in_meta_tag", "found_in_social_section"]

/-- The page-scanner statuses whose record URL is the canonical profile URL
built from the username. -/
def pageCanonStatuses : List String :=
  ["found_in_link_text", "found_in_page_text", "found_in_meta_tag",
   "found_in_social_section"]

/-- The statuses for which the handle URL is the canonical profile URL built
from the username (the `found_*` statuses other than `found_direct` and
`found_in_site`). -/
def canonHandleStatuses : List String :=
  ["found_from_text", "found_in_link_text", "found_in_page_text",
   "found_in_meta_tag", "found_in_social_section"]

/-- The candidate denylist exactly as the claim enumerates it (the source's
`invalid_patterns` folds `.com.br` into the `\.com(?:\.br)?` pattern). -/
def claimDenylist : List String :=
  [".com", ".com.br", "gmail", "google", "outlook", "hotmail", "yahoo",
   "email", "contact", "contato", "info", "admin", "web", "site", "www",
   "http", "https", "mailto:", "@gmail.com", "@hotmail.com",
   "@outlook.com", "@yahoo.com"]

/-- A session in which every fetch fails. -/
def noWorld : List Char → Option Response := fun _ => none

/-- The property every record delivered by the page scanner satisfies: a
stage-1 hit carries status `found_in_site` (its URL is the normalised href);
every other stage builds the canonical profile URL from the username. -/
def pageHitProp (i : FoundInfo) : Prop :=
  i.status = "found_in_site" ∨
    (i.status ∈ pageCanonStatuses ∧
      i.url = "https://www.instagram.com/" ++ String.mk i.username ++ "/")

/-- A page with no anchors, no text, no metas and no selector matches. -/
def emptyDoc : PageDoc := ⟨[], [], [], fun _ => []⟩

/-- A homepage carrying two same-domain links and no handle. -/
def docTwoLinks : PageDoc :=
  ⟨[⟨"http://s.com/a".data, []⟩, ⟨"http://s.com/b".data, []⟩], [], [], fun _ => []⟩

/-- An inner page linking back to `/a` and carrying no handle. -/
def docOneLink : PageDoc := ⟨[⟨"http://s.com/a".data, []⟩], [], [], fun _ => []⟩

/-- A session for the duplicate-fetch scenario: the homepage and `/b` answer
200 with no handle, `/a` answers 404 (so it is never marked visited), and
`/a` is linked both from the homepage and from `/b`. -/
def worldRetry : List Char → Option Response := fun u =>
  if u = "http://s.com".data then some ⟨200, "http://s.com".data, docTwoLinks⟩
  else if u = "http://s.com/a".data then some ⟨404, "http://s.com/a".data, emptyDoc⟩
  else if u = "http://s.com/b".data then some ⟨200, "http://s.com/b".data, docOneLink⟩
  else none

/-- A session whose only page is a handle-free homepage answering 200. -/
def worldOnePage : List Char → Option Response := fun u =>
  if u = "http://one.com".data then some ⟨200, "http://one.com".data, emptyDoc⟩
  else none

/-! ## Helper lemmas -/

theorem charToNat_ofNat (n : Nat) (h : n < 55296) : (Char.ofNat n).toNat = n := by
  have hv : n.isValidChar := Or.inl h
  rw [Char.ofNat, dif_pos hv]
  rfl

theorem pyLower_at (c : Char) (h : pyLower c = '@') : c = '@' := by
  unfold pyLower at h
  split_ifs at h with hc
  · have h2 := congrArg Char.toNat h
    rw [charToNat_ofNat (c.toNat + 32) (by omega)] at h2
    have : ('@').toNat = 64 := rfl
    omega
  · exact h

theorem mk_eq_empty_iff (u : List Char) : String.mk u = "" ↔ u = [] := by
  constructor
  · intro h
    have := congrArg String.data h
    simpa using this
  · intro h
    subst h
    rfl

theorem valid_ne_nil (u : List Char)
    (h : is_valid_instagram_username u = true) : u ≠ [] := by
  intro hn
  subst hn
  exact absurd h (by decide)

theorem containsSub_iff (p : List Char) (l : List Char) :
    containsSub p l = true ↔ p <:+: l := by
  induction l with
  | nil =>
    simp only [containsSub, List.isEmpty_iff, List.infix_nil]
  | cons c t ih =>
    simp only [containsSub, Bool.or_eq_true, List.isPrefixOf_iff_prefix, ih,
      List.infix_cons_iff]

theorem mem_containsSub (c : Char) (l : List Char) (h : c ∈ l) :
    containsSub [c] l = true := by
  rw [containsSub_iff]
  obtain ⟨s, t, rfl⟩ := List.append_of_mem h
  exact ⟨s, t, by simp⟩

theorem valid_true_facts (u : List Char)
    (h : is_valid_instagram_username u = true) :
    (∀ p ∈ invalidSubs, containsSub p.data (lowerL u) = false) ∧
    (lowerL u).any isPySpace = false ∧
    u.length ≤ 30 ∧ u.all isAllowed = true := by
  simp only [is_valid_instagram_username] at h
  split_ifs at h with h1 h2 h3 h4 h5
  · rw [Bool.not_eq_true, Bool.or_eq_false_iff] at h1
    rw [Bool.not_eq_true, Bool.not_eq_false', Bool.and_eq_true] at h5
    refine ⟨?_, h1.2, by omega, h5.2⟩
    intro p hp
    rw [List.any_eq_false] at h1
    simpa using h1.1 p hp

theorem head_dropWhile_false {α : Type} (p : α → Bool) (l : List α) (x : α)
    (h : (l.dropWhile p).head? = some x) : p x = false := by
  induction l with
  | nil => simp at h
  | cons c t ih =>
    rw [List.dropWhile_cons] at h
    split_ifs at h with hp
    · exact ih h
    · simp only [List.head?_cons, Option.some.injEq] at h
      subst h
      exact Bool.not_eq_true _ ▸ Bool.eq_false_iff.mpr (fun ht => hp ht)

theorem rstripSlash_getLast (l : List Char) :
    (rstripSlash l).getLast? ≠ some '/' := by
  unfold rstripSlash
  rw [List.getLast?_reverse]
  intro h
  have := head_dropWhile_false _ _ _ h
  simp at this

theorem mem_rstripSlash (c : Char) (l : List Char) (h : c ∈ rstripSlash l) :
    c ∈ l := by
  unfold rstripSlash at h
  rw [List.mem_reverse] at h
  have := (List.dropWhile_sublist _).subset h
  rwa [List.mem_reverse] at this

theorem mem_completeScheme (url : List Char) (c : Char) (h : c ∈ url) :
    c ∈ completeScheme url := by
  unfold completeScheme
  split_ifs <;> simp [h]

/-! ## Claim theorems -/

/-- Claim C2: every candidate containing a denylisted substring
(case-insensitively), one of the characters `? & = %`, whitespace, a
character outside `[A-Za-z0-9_.]`, or longer than 30 characters, is rejected
by `_is_valid_instagram_username`. -/
theorem C2_validator_rejects_denylisted (u : List Char)
    (h : (∃ p ∈ claimDenylist, containsSub p.data (lowerL u) = true) ∨
         (∃ c ∈ u, c = '?' ∨ c = '&' ∨ c = '=' ∨ c = '%' ∨ isPySpace c = true) ∨
         30 < u.length ∨
         (∃ c ∈ u, isAllowed c = false)) :
    is_valid_instagram_username u = false := by
  rcases Bool.eq_false_or_eq_true (is_valid_instagram_username u) with ht | hf
  case inr => exact hf
  exfalso
  obtain ⟨hsubs, _, hlen, hall⟩ := valid_true_facts u ht
  rw [List.all_eq_true] at hall
  have badChar : ∀ c ∈ u, isAllowed c = false → False := by
    intro c hc hbad
    rw [hall c hc] at hbad
    exact Bool.true_eq_false ▸ Bool.noConfusion hbad
  rcases h with ⟨p, hp, hcon⟩ | ⟨c, hc, hcase⟩ | hl | ⟨c, hc, hbad⟩
  · have key : ∀ p ∈ claimDenylist, ∃ q ∈ invalidSubs, q.data <:+: p.data := by
      decide
    obtain ⟨q, hq, hinf⟩ := key p hp
    have hqc : containsSub q.data (lowerL u) = true := by
      rw [containsSub_iff]
      exact hinf.trans ((containsSub_iff _ _).mp hcon)
    rw [hsubs q hq] at hqc
    exact Bool.false_ne_true hqc
  · refine badChar c hc ?_
    rcases hcase with rfl | rfl | rfl | rfl | hws
    · rfl
    · rfl
    · rfl
    · rfl
    · simp only [isPySpace, Bool.or_eq_true, decide_eq_true_eq] at hws
      rcases hws with ((((rfl | rfl) | rfl) | rfl) | rfl) | rfl <;> rfl
  · omega
  · exact badChar c hc hbad

/-- Witness for C2 at the concrete candidate `gmail_guy` (contains the
denylisted substring `gmail`). -/
theorem C2_validator_rejects_denylisted_witness :
    is_valid_instagram_username ("gmail_guy".data) = false :=
  C2_validator_rejects_denylisted _ (Or.inl (by decide))

/-- Claim C9: `_is_valid_instagram_username` rejects the empty string — the
final allowed-character check `^[a-zA-Z0-9_.]+$` requires at least one
character. -/
theorem C9_validator_rejects_empty :
    is_valid_instagram_username [] = false := by decide

/-- Claim C8: the input `"@john.doe"` yields `found_direct` with username
`john.doe` and the canonical profile URL, whatever the crawl configuration
and HTTP session (the direct path performs no fetch). -/
theorem C8_at_john_doe (maxDepth maxPages fuel : Nat)
    (world : List Char → Option Response) :
    (extract_instagram_info maxDepth maxPages world fuel "@john.doe").status
        = "found_direct" ∧
    (extract_instagram_info maxDepth maxPages world fuel "@john.doe").instagram_username
        = "john.doe" ∧
    (extract_instagram_info maxDepth maxPages world fuel "@john.doe").instagram_url
        = "https://www.instagram.com/john.doe/" := by
  refine ⟨rfl, rfl, rfl⟩

/-- Counterexample to Claim C1: on input `"instagram.com/p"` the outcome's
status is the dict initialiser `no_instagram` (the direct-URL branch finds no
extractable username because `p` is a reserved segment), which is not a
member of the closed `StatusCode` enum. -/
theorem C1_status_outside_enum :
    (extract_instagram_info 2 5 noWorld 10 "instagram.com/p").status
        = "no_instagram" ∧
    "no_instagram" ∉ statusCodes := by decide

/-- Counterexample to Claim C5: on the non-`@` input `"instagram.com/abc/"`
(no query string) `_normalize_instagram_url` keeps the trailing slash. -/
theorem C5_trailing_slash_kept :
    ("instagram.com/abc/".data.head? ≠ some '@') ∧
    (normalize_instagram_url "instagram.com/abc/".data).getLast? = some '/' := by
  decide

/-- Claim C5 as amended: for inputs not starting with `@`, the result never
contains a query string, and the trailing slash is stripped exactly when the
input contained a `?` (otherwise a trailing slash survives, as the
counterexample shows). -/
theorem C5_amended_normalize (url : List Char) (h : url.head? ≠ some '@') :
    ('?' ∉ normalize_instagram_url url) ∧
    ('?' ∈ url → (normalize_instagram_url url).getLast? ≠ some '/') := by
  have hAt : ¬ ((lowerL url).head? = some '@') := by
    cases url with
    | nil => simp [lowerL]
    | cons c t =>
      simp only [lowerL, List.map_cons, List.head?_cons, Option.some.injEq]
      intro hc
      exact h (by simp [pyLower_at c hc])
  simp only [normalize_instagram_url]
  rw [if_neg hAt]
  by_cases hq : '?' ∈ completeScheme url
  · rw [if_pos hq]
    constructor
    · intro hmem
      have h1 := mem_rstripSlash _ _ hmem
      have h2 := List.mem_takeWhile_imp h1
      simp at h2
    · intro _
      exact rstripSlash_getLast _
  · rw [if_neg hq]
    refine ⟨hq, ?_⟩
    intro hqu
    exact absurd (mem_completeScheme url '?' hqu) hq

/-- Witness for C5 as amended at the concrete input `"site.com/a?b/"`. -/
theorem C5_amended_normalize_witness :
    ('?' ∉ normalize_instagram_url "site.com/a?b/".data) ∧
    (normalize_instagram_url "site.com/a?b/".data).getLast? ≠ some '/' := by
  have h := C5_amended_normalize ("site.com/a?b/".data) (by decide)
  exact ⟨h.1, h.2 (by decide)⟩

/-- Counterexample to Claim C7: the engine removes all whitespace from the
input before the text-extraction step, so on `"ig: somehandle"` — where
`usernameFromText` on the raw input yields the valid candidate `somehandle` —
the outcome is not `found_from_text` (the labelled pattern needs its space;
the input falls through to the crawl, which finds nothing). -/
theorem C7_label_handle_lost :
    extract_username_from_text ("ig: somehandle".data) = some ("somehandle".data) ∧
    is_valid_instagram_username ("somehandle".data) = true ∧
    (extract_instagram_info 2 5 noWorld 10 "ig: somehandle").status
        = "not_found_after_scan" := by
  decide

/-- Claim C7 as amended: the text-extraction step applies
`usernameFromText` to the whitespace-stripped input (not the raw input): if
it yields a candidate there, the outcome is `found_from_text` when the
candidate is valid and `invalid_username_from_text` otherwise.  Labelled
forms such as `ig: somehandle` therefore never match at this step. -/
theorem C7_amended_text_step (maxDepth maxPages fuel : Nat)
    (world : List Char → Option Response) (url : String) (u : List Char)
    (h0 : ¬ (pyStrip url.data).isEmpty = true)
    (h1 : is_direct_instagram_url (wsClean url) = false)
    (h2 : extract_username_from_text (wsClean url) = some u) :
    (extract_instagram_info maxDepth maxPages world fuel url).status =
      (if is_valid_instagram_username u then "found_from_text"
       else "invalid_username_from_text") ∧
    (extract_instagram_info maxDepth maxPages world fuel url).instagram_username =
      (if is_valid_instagram_username u then String.mk u else "") := by
  simp only [extract_instagram_info]
  rw [if_neg h0, if_neg (by simp [h1]), h2]
  cases hv : is_valid_instagram_username u <;> simp [hv]

/-- Witness for C7 as amended at the concrete input `"x@ann"`. -/
theorem C7_amended_text_step_witness :
    (extract_instagram_info 2 5 noWorld 3 "x@ann").status = "found_from_text" ∧
    (extract_instagram_info 2 5 noWorld 3 "x@ann").instagram_username = "ann" := by
  have h := C7_amended_text_step 2 5 3 noWorld "x@ann" ("ann".data)
    (by decide) (by decide) (by decide)
  rcases h with ⟨hs, hu⟩
  rw [if_pos (by decide)] at hs
  rw [if_pos (by decide)] at hu
  exact ⟨hs, hu⟩

/-- Claim C4: the code slip it exposes.  With `maxPages = 1` and a start page
that answers 200 and carries no handle, the crawl scans exactly one page, the
outcome's status is `not_found_after_scan` — but its `pages_scanned` field is
0, not 1: `_crawl_site_for_instagram` returns `None` on the not-found path
and the local counter is lost, so the outcome does not carry the number of
pages actually scanned (the notes string even reports "Varridas 0 páginas"). -/
theorem C4_pages_scanned_dropped :
    (extract_instagram_info 2 1 worldOnePage 10 "one.com").status
        = "not_found_after_scan" ∧
    (extract_instagram_info 2 1 worldOnePage 10 "one.com").pages_scanned = 0 ∧
    (crawl_site_for_instagram 2 1 worldOnePage 10 "one.com".data).scans.length
        = 1 := by
  decide

/-! ## Page-scanner and crawl-loop structure lemmas -/
theorem canonInfo_prop (u : List Char) (status notes : String)
    (hm : status ∈ pageCanonStatuses) : pageHitProp (canonInfo u status notes) :=
  Or.inr ⟨hm, rfl⟩

theorem anchorHrefHit_spec (pu : List Char) (a : Anchor) (i : FoundInfo)
    (h : anchorHrefHit pu a = some i) : i.status = "found_in_site" := by
  simp only [anchorHrefHit] at h
  split_ifs at h with h1
  case pos =>
    cases hX : extract_username_from_url (normalize_url (pyStrip a.href) pu) with
    | some u =>
      rw [hX] at h
      dsimp only at h
      split_ifs at h with h2
      case pos =>
        have h3 := Option.some.inj h
        subst h3
        rfl
    | none =>
      rw [hX] at h
      dsimp only at h
      exact Option.noConfusion h

theorem scanAnchors_spec (pu : List Char) (l : List Anchor) (i : FoundInfo)
    (h : scanAnchors pu l = some i) : pageHitProp i := by
  induction l with
  | nil => exact Option.noConfusion h
  | cons a rest ih =>
    rw [scanAnchors] at h
    cases hA : anchorHrefHit pu a with
    | some i2 =>
      rw [hA] at h
      dsimp only at h
      have h2 : i2 = i := Option.some.inj h
      subst h2
      exact Or.inl (anchorHrefHit_spec pu a i2 hA)
    | none =>
      rw [hA] at h
      dsimp only at h
      cases hT : extract_username_from_text a.text with
      | some u =>
        rw [hT] at h
        dsimp only at h
        split_ifs at h with hv
        case pos =>
          have h3 := Option.some.inj h
          subst h3
          exact canonInfo_prop _ _ _ (by decide)
        case neg => exact ih h
      | none =>
        rw [hT] at h
        dsimp only at h
        exact ih h

theorem scanPageText_spec (t : List Char) (i : FoundInfo)
    (h : scanPageText t = some i) : pageHitProp i := by
  simp only [scanPageText] at h
  cases hT : extract_username_from_text t with
  | some u =>
    rw [hT] at h
    dsimp only at h
    split_ifs at h with hv
    case pos =>
      have h3 := Option.some.inj h
      subst h3
      exact canonInfo_prop _ _ _ (by decide)
  | none =>
    rw [hT] at h
    dsimp only at h
    exact Option.noConfusion h

theorem scanMetas_spec (l : List MetaTag) (i : FoundInfo)
    (h : scanMetas l = some i) : pageHitProp i := by
  induction l with
  | nil => exact Option.noConfusion h
  | cons m rest ih =>
    rw [scanMetas] at h
    split_ifs at h with hne
    case pos =>
      cases hT : extract_username_from_text m.content with
      | some u =>
        rw [hT] at h
        dsimp only at h
        split_ifs at h with hv
        case pos =>
          have h3 := Option.some.inj h
          subst h3
          exact canonInfo_prop _ _ _ (by decide)
        case neg => exact ih h
      | none =>
        rw [hT] at h
        dsimp only at h
        exact ih h
    case neg => exact ih h

theorem scanElems_spec (sel : String) (l : List (List Char)) (i : FoundInfo)
    (h : scanElems sel l = some i) : pageHitProp i := by
  induction l with
  | nil => exact Option.noConfusion h
  | cons t rest ih =>
    rw [scanElems] at h
    cases hT : extract_username_from_text t with
    | some u =>
      rw [hT] at h
      dsimp only at h
      split_ifs at h with hv
      case pos =>
        have h3 := Option.some.inj h
        subst h3
        exact canonInfo_prop _ _ _ (by decide)
      case neg => exact ih h
    | none =>
      rw [hT] at h
      dsimp only at h
      exact ih h

theorem scanSelectors_spec (doc : PageDoc) (l : List String) (i : FoundInfo)
    (h : scanSelectors doc l = some i) : pageHitProp i := by
  induction l with
  | nil => exact Option.noConfusion h
  | cons sel rest ih =>
    rw [scanSelectors] at h
    cases hE : scanElems sel (doc.select sel) with
    | some i2 =>
      rw [hE] at h
      dsimp only at h
      have h2 : i2 = i := Option.some.inj h
      subst h2
      exact scanElems_spec sel _ i2 hE
    | none =>
      rw [hE] at h
      dsimp only at h
      exact ih h

theorem findInstagramInPage_spec (doc : PageDoc) (pu : List Char)
    (i : FoundInfo) (h : findInstagramInPage doc pu = some i) :
    pageHitProp i := by
  simp only [findInstagramInPage] at h
  cases hA : scanAnchors pu doc.anchors with
  | some i2 =>
    rw [hA] at h
    dsimp only at h
    have h2 : i2 = i := Option.some.inj h
    subst h2
    exact scanAnchors_spec pu doc.anchors i2 hA
  | none =>
    rw [hA] at h
    dsimp only at h
    cases hT : scanPageText doc.pageText with
    | some i2 =>
      rw [hT] at h
      dsimp only at h
      have h2 : i2 = i := Option.some.inj h
      subst h2
      exact scanPageText_spec doc.pageText i2 hT
    | none =>
      rw [hT] at h
      dsimp only at h
      cases hM : scanMetas doc.metas with
      | some i2 =>
        rw [hM] at h
        dsimp only at h
        have h2 : i2 = i := Option.some.inj h
        subst h2
        exact scanMetas_spec doc.metas i2 hM
      | none =>
        rw [hM] at h
        dsimp only at h
        exact scanSelectors_spec doc social_selectors i h

theorem crawlLoop_hit_spec (mD mP : Nat) (w : List Char → Option Response) :
    ∀ fuel frontier visited n ch,
      (crawlLoop mD mP w fuel frontier visited n).hit = some ch →
      pageHitProp ch.info := by
  intro fuel
  induction fuel with
  | zero => intro fr v n ch h; exact Option.noConfusion h
  | succ fuel ih =>
    intro fr v n ch h
    cases fr with
    | nil => exact Option.noConfusion h
    | cons e rest =>
      obtain ⟨u, d⟩ := e
      rw [crawlLoop] at h
      split_ifs at h with h1 h2 h3
      · exact ih rest v n ch h
      · exact ih rest v n ch h
      all_goals cases hw : w u with
        | none =>
          rw [hw] at h
          dsimp only at h
          exact ih rest v n ch h
        | some resp =>
          rw [hw] at h
          dsimp only at h
          by_cases h200 : resp.statusCode = 200
          · rw [if_pos h200] at h
            cases hF : findInstagramInPage resp.doc resp.finalUrl with
            | some inf =>
              rw [hF] at h
              dsimp only at h
              have h2 : (⟨inf, n + 1, String.mk resp.finalUrl⟩ : CrawlHit) = ch :=
                Option.some.inj h
              subst h2
              exact findInstagramInPage_spec resp.doc resp.finalUrl inf hF
            | none =>
              rw [hF] at h
              dsimp only at h
              exact ih _ _ _ ch h
          · rw [if_neg h200] at h
            exact ih rest v n ch h

theorem canon_mem_facts : ∀ s ∈ pageCanonStatuses,
    s ∈ ("no_instagram" :: statusCodes) ∧ s ∈ foundStatuses ∧
      s ∈ canonHandleStatuses := by decide

/-- Claim C1 as amended: every outcome's status lies in the closed enum
*extended by the dict-initialiser value `no_instagram`* (reachable when a
direct Instagram URL yields no extractable username, as the counterexample
shows), and the username field is non-empty exactly when the status is one of
the `found_*` kinds. -/
theorem C1_amended_status_username (maxDepth maxPages fuel : Nat)
    (world : List Char → Option Response) (url : String) :
    ((extract_instagram_info maxDepth maxPages world fuel url).status ∈
        "no_instagram" :: statusCodes) ∧
    ((extract_instagram_info maxDepth maxPages world fuel url).instagram_username
        ≠ "" ↔
      (extract_instagram_info maxDepth maxPages world fuel url).status ∈
        foundStatuses) := by
  simp only [extract_instagram_info]
  by_cases h0 : (pyStrip url.data).isEmpty = true
  · rw [if_pos h0]
    exact ⟨by (try dsimp only); decide,
      iff_of_false (fun hc => hc rfl) (by (try dsimp only); decide)⟩
  rw [if_neg h0]
  by_cases hd : is_direct_instagram_url (wsClean url) = true
  · rw [if_pos hd]
    cases hX : extract_username_from_url (normalize_instagram_url (wsClean url)) with
    | some u =>
      dsimp only
      by_cases hv : is_valid_instagram_username u = true
      · rw [if_pos hv]
        refine ⟨by (try dsimp only); decide,
          iff_of_true ?_ (by (try dsimp only); decide)⟩
        intro hmk
        exact valid_ne_nil u hv ((mk_eq_empty_iff u).mp hmk)
      · rw [if_neg hv]
        exact ⟨by (try dsimp only); decide,
          iff_of_false (fun hc => hc rfl) (by (try dsimp only); decide)⟩
    | none =>
      exact ⟨by (try dsimp only); decide,
        iff_of_false (fun hc => hc rfl) (by (try dsimp only); decide)⟩
  rw [if_neg hd]
  cases hT : extract_username_from_text (wsClean url) with
  | some u =>
    dsimp only
    by_cases hv : is_valid_instagram_username u = true
    · rw [if_pos hv]
      refine ⟨by (try dsimp only); decide, iff_of_true ?_ (by (try dsimp only); decide)⟩
      intro hmk
      exact valid_ne_nil u hv ((mk_eq_empty_iff u).mp hmk)
    · rw [if_neg hv]
      exact ⟨by (try dsimp only); decide,
        iff_of_false (fun hc => hc rfl) (by (try dsimp only); decide)⟩
  | none =>
    dsimp only
    cases hC : (crawl_site_for_instagram maxDepth maxPages world fuel (wsClean url)).hit with
    | some ch =>
      dsimp only
      have hP : pageHitProp ch.info :=
        crawlLoop_hit_spec maxDepth maxPages world fuel _ [] 0 ch hC
      by_cases hv : is_valid_instagram_username ch.info.username = true
      · rw [if_pos hv]
        have hne : String.mk ch.info.username ≠ "" := fun hmk =>
          valid_ne_nil _ hv ((mk_eq_empty_iff _).mp hmk)
        rcases hP with hs | ⟨hmem, _⟩
        · refine ⟨?_, iff_of_true hne ?_⟩
          · dsimp only
            rw [hs]
            decide
          · dsimp only
            rw [hs]
            decide
        · have hf := canon_mem_facts _ hmem
          exact ⟨hf.1, iff_of_true hne hf.2.1⟩
      · rw [if_neg hv]
        exact ⟨by (try dsimp only); decide,
          iff_of_false (fun hc => hc rfl) (by (try dsimp only); decide)⟩
    | none =>
      dsimp only
      exact ⟨by (try dsimp only); decide,
        iff_of_false (fun hc => hc rfl) (by (try dsimp only); decide)⟩

/-- Claim C10: whenever the status is `found_from_text`,
`found_in_link_text`, `found_in_page_text`, `found_in_meta_tag` or
`found_in_social_section`, the handle URL is exactly
`https://www.instagram.com/<username>/`. -/
theorem C10_canonical_profile_url (maxDepth maxPages fuel : Nat)
    (world : List Char → Option Response) (url : String)
    (h : (extract_instagram_info maxDepth maxPages world fuel url).status ∈
        canonHandleStatuses) :
    (extract_instagram_info maxDepth maxPages world fuel url).instagram_url =
      "https://www.instagram.com/" ++
        (extract_instagram_info maxDepth maxPages world fuel url).instagram_username
        ++ "/" := by
  simp only [extract_instagram_info] at h ⊢
  by_cases h0 : (pyStrip url.data).isEmpty = true
  · rw [if_pos h0] at h
    (try dsimp only at h)
    exact absurd h (by decide)
  rw [if_neg h0] at h ⊢
  by_cases hd : is_direct_instagram_url (wsClean url) = true
  · rw [if_pos hd] at h ⊢
    cases hX : extract_username_from_url (normalize_instagram_url (wsClean url)) with
    | some u =>
      (try rw [hX] at h)
      (try rw [hX])
      (try dsimp only at h)
      (try dsimp only)
      by_cases hv : is_valid_instagram_username u = true
      · rw [if_pos hv] at h
        (try dsimp only at h)
        exact absurd h (by decide)
      · rw [if_neg hv] at h
        (try dsimp only at h)
        exact absurd h (by decide)
    | none =>
      (try rw [hX] at h)
      (try dsimp only at h)
      exact absurd h (by decide)
  rw [if_neg hd] at h ⊢
  cases hT : extract_username_from_text (wsClean url) with
  | some u =>
    (try rw [hT] at h)
    (try rw [hT])
    (try dsimp only at h)
    (try dsimp only)
    by_cases hv : is_valid_instagram_username u = true
    · rw [if_pos hv] at h ⊢
    · rw [if_neg hv] at h
      (try dsimp only at h)
      exact absurd h (by decide)
  | none =>
    (try rw [hT] at h)
    (try rw [hT])
    (try dsimp only at h)
    (try dsimp only)
    cases hC : (crawl_site_for_instagram maxDepth maxPages world fuel (wsClean url)).hit with
    | some ch =>
      (try rw [hC] at h)
      (try rw [hC])
      (try dsimp only at h)
      (try dsimp only)
      have hP : pageHitProp ch.info :=
        crawlLoop_hit_spec maxDepth maxPages world fuel _ [] 0 ch hC
      by_cases hv : is_valid_instagram_username ch.info.username = true
      · rw [if_pos hv] at h ⊢
        (try dsimp only at h)
        (try dsimp only)
        rcases hP with hs | ⟨_, hurl⟩
        · rw [hs] at h
          exact absurd h (by decide)
        · exact hurl
      · rw [if_neg hv] at h
        (try dsimp only at h)
        exact absurd h (by decide)
    | none =>
      (try rw [hC] at h)
      (try dsimp only at h)
      exact absurd h (by decide)

/-- Witness for C10 at the concrete input `"hi@bea"` (a `found_from_text`
outcome). -/
theorem C10_canonical_profile_url_witness :
    (extract_instagram_info 2 5 noWorld 4 "hi@bea").instagram_url =
      "https://www.instagram.com/" ++
        (extract_instagram_info 2 5 noWorld 4 "hi@bea").instagram_username
        ++ "/" :=
  C10_canonical_profile_url 2 5 4 noWorld "hi@bea" (by decide)

theorem crawlLoop_nil (mD mP : Nat) (w : List Char → Option Response)
    (fuel : Nat) (v : List (List Char)) (n : Nat) :
    crawlLoop mD mP w fuel [] v n = ⟨none, [], [], []⟩ := by
  cases fuel with
  | zero => rfl
  | succ fuel => rfl

theorem crawlLoop_stop (mD mP : Nat) (w : List Char → Option Response)
    (fuel : Nat) (fr : List (List Char × Nat)) (v : List (List Char)) (n : Nat)
    (h : mP ≤ n) : crawlLoop mD mP w fuel fr v n = ⟨none, [], [], []⟩ := by
  cases fuel with
  | zero => rfl
  | succ fuel =>
    cases fr with
    | nil => rfl
    | cons e rest =>
      obtain ⟨u, d⟩ := e
      rw [crawlLoop, if_pos h]

theorem crawlLoop_invariants (mD mP : Nat) (w : List Char → Option Response) :
    ∀ fuel fr v n,
      ((crawlLoop mD mP w fuel fr v n).scans.Nodup ∧
        ∀ x ∈ (crawlLoop mD mP w fuel fr v n).scans, x ∉ v) ∧
      (n ≤ mP → n + (crawlLoop mD mP w fuel fr v n).scans.length ≤ mP) ∧
      (∀ e ∈ (crawlLoop mD mP w fuel fr v n).enqueued, e.2 ≤ mD) := by
  intro fuel
  induction fuel with
  | zero => intro fr v n; simp [crawlLoop]
  | succ fuel ih =>
    intro fr v n
    cases fr with
    | nil => simp [crawlLoop]
    | cons e rest =>
      obtain ⟨u, d⟩ := e
      rw [crawlLoop]
      split_ifs with h1 h2 h3 h4
      · simp
      · exact ih rest v n
      · exact ih rest v n
      · cases hw : w u with
        | none => exact ih rest v n
        | some resp =>
          (try dsimp only)
          by_cases h200 : resp.statusCode = 200
          · rw [if_pos h200]
            cases hF : findInstagramInPage resp.doc resp.finalUrl with
            | some inf =>
              (try dsimp only)
              refine ⟨⟨by simp, ?_⟩, ?_, by simp⟩
              · intro x hx
                rcases List.mem_cons.mp hx with rfl | hx2
                · exact h2
                · exact absurd hx2 (List.not_mem_nil x)
              · intro hn
                simp only [List.length_cons, List.length_nil]
                omega
            | none =>
              (try dsimp only)
              obtain ⟨⟨hnd, hnin⟩, hlen, henq⟩ :=
                ih (rest ++ (((extract_links resp.doc resp.finalUrl).filter fun l =>
                  decide (l ∉ u :: v)).map fun l => (l, d + 1))) (u :: v) (n + 1)
              refine ⟨⟨?_, ?_⟩, ?_, ?_⟩
              · refine List.nodup_cons.mpr ⟨?_, hnd⟩
                intro hmem
                exact (hnin u hmem) (List.mem_cons_self u _)
              · intro x hx
                rcases List.mem_cons.mp hx with rfl | hx2
                · exact h2
                · intro hxv
                  exact (hnin x hx2) (List.mem_cons_of_mem u hxv)
              · intro hn
                have hlen2 := hlen (by omega)
                simp only [List.length_cons]
                omega
              · intro e2 he
                rcases List.mem_append.mp he with he1 | he2
                · obtain ⟨l, _, rfl⟩ := List.mem_map.mp he1
                  omega
                · exact henq e2 he2
          · rw [if_neg h200]
            exact ih rest v n
      · cases hw : w u with
        | none => exact ih rest v n
        | some resp =>
          (try dsimp only)
          by_cases h200 : resp.statusCode = 200
          · rw [if_pos h200]
            cases hF : findInstagramInPage resp.doc resp.finalUrl with
            | some inf =>
              (try dsimp only)
              refine ⟨⟨by simp, ?_⟩, ?_, by simp⟩
              · intro x hx
                rcases List.mem_cons.mp hx with rfl | hx2
                · exact h2
                · exact absurd hx2 (List.not_mem_nil x)
              · intro hn
                simp only [List.length_cons, List.length_nil]
                omega
            | none =>
              (try dsimp only)
              obtain ⟨⟨hnd, hnin⟩, hlen, henq⟩ :=
                ih (rest ++ []) (u :: v) (n + 1)
              refine ⟨⟨?_, ?_⟩, ?_, ?_⟩
              · refine List.nodup_cons.mpr ⟨?_, hnd⟩
                intro hmem
                exact (hnin u hmem) (List.mem_cons_self u _)
              · intro x hx
                rcases List.mem_cons.mp hx with rfl | hx2
                · exact h2
                · intro hxv
                  exact (hnin x hx2) (List.mem_cons_of_mem u hxv)
              · intro hn
                have hlen2 := hlen (by omega)
                simp only [List.length_cons]
                omega
              · intro e2 he
                rcases List.mem_append.mp he with he1 | he2
                · exact absurd he1 (List.not_mem_nil e2)
                · exact henq e2 he2
          · rw [if_neg h200]
            exact ih rest v n

/-- Counterexample to Claim C3: in the `worldRetry` session the URL
`http://s.com/a` answers 404, is never marked visited, is enqueued both from
the homepage and from `/b`, and is therefore fetched twice; moreover with
`maxPages = 3` the loop performs 4 fetches, because only 200-responses count
against the page budget. -/
theorem C3_refetch_counterexample :
    ¬ (crawl_site_for_instagram 2 3 worldRetry 20 "s.com".data).fetches.Nodup ∧
    3 < (crawl_site_for_instagram 2 3 worldRetry 20 "s.com".data).fetches.length := by
  decide

/-- Claim C3 as amended: within one crawl session the crawler never
*successfully scans* the same absolute URL twice (a URL is added to the
visited set only when its fetch returns 200, so failing URLs can be fetched
again), performs at most `maxPages` *successful* fetches, and never enqueues
a frontier entry whose depth exceeds `maxDepth`. -/
theorem C3_amended_session_invariants (maxDepth maxPages fuel : Nat)
    (world : List Char → Option Response) (start_url : List Char) :
    (crawl_site_for_instagram maxDepth maxPages world fuel start_url).scans.Nodup ∧
    (crawl_site_for_instagram maxDepth maxPages world fuel start_url).scans.length
        ≤ maxPages ∧
    ((crawl_site_for_instagram maxDepth maxPages world fuel start_url).enqueued.all
      fun e => decide (e.2 ≤ maxDepth)) = true := by
  obtain ⟨⟨hnd, _⟩, hlen, henq⟩ :=
    crawlLoop_invariants maxDepth maxPages world fuel
      [(prefixHttp start_url, 0)] [] 0
  refine ⟨hnd, ?_, ?_⟩
  · show (crawlLoop maxDepth maxPages world fuel
        [(prefixHttp start_url, 0)] [] 0).scans.length ≤ maxPages
    have h := hlen (Nat.zero_le _)
    omega
  · rw [List.all_eq_true]
    intro e he
    exact decide_eq_true (henq e he)

/-- Claim C6: a fetch failure (exception or timeout) on one URL is swallowed:
popping a failing entry leaves the crawl's result and scan history those of
the rest of the frontier with unchanged state; consequently, when the start
URL's fetch fails and the frontier then empties, the engine reports
`not_found_after_scan` (with 0 pages scanned), not `crawl_error`. -/
theorem C6_fetch_failure_swallowed :
    (∀ (mD mP : Nat) (w : List Char → Option Response) (fuel : Nat)
        (u : List Char) (d : Nat) (rest : List (List Char × Nat))
        (v : List (List Char)) (n : Nat),
      w u = none →
        (crawlLoop mD mP w (fuel + 1) ((u, d) :: rest) v n).hit =
          (crawlLoop mD mP w fuel rest v n).hit ∧
        (crawlLoop mD mP w (fuel + 1) ((u, d) :: rest) v n).scans =
          (crawlLoop mD mP w fuel rest v n).scans) ∧
    (∀ (mD mP : Nat) (w : List Char → Option Response) (fuel : Nat)
        (url : String),
      ¬ (pyStrip url.data).isEmpty = true →
      is_direct_instagram_url (wsClean url) = false →
      extract_username_from_text (wsClean url) = none →
      w (prefixHttp (wsClean url)) = none →
        (extract_instagram_info mD mP w (fuel + 1) url).status =
          "not_found_after_scan" ∧
        (extract_instagram_info mD mP w (fuel + 1) url).pages_scanned = 0) := by
  constructor
  · intro mD mP w fuel u d rest v n hw
    rw [crawlLoop]
    by_cases h1 : mP ≤ n
    · rw [if_pos h1, crawlLoop_stop mD mP w fuel rest v n h1]
      exact ⟨rfl, rfl⟩
    rw [if_neg h1]
    by_cases h2 : u ∈ v
    · rw [if_pos h2]
      exact ⟨rfl, rfl⟩
    rw [if_neg h2]
    by_cases h3 : mD < d
    · rw [if_pos h3]
      exact ⟨rfl, rfl⟩
    rw [if_neg h3, hw]
    exact ⟨rfl, rfl⟩
  · intro mD mP w fuel url h0 hd hT hw
    have hcrawl : (crawl_site_for_instagram mD mP w (fuel + 1) (wsClean url)).hit
        = none := by
      unfold crawl_site_for_instagram
      rw [crawlLoop]
      by_cases h1 : mP ≤ 0
      · rw [if_pos h1]
      · rw [if_neg h1, if_neg (by simp), if_neg (by omega), hw]
        show (crawlLoop mD mP w fuel [] [] 0).hit = none
        rw [crawlLoop_nil]
    simp only [extract_instagram_info]
    rw [if_neg h0, if_neg (by simp [hd]), hT]
    (try dsimp only)
    rw [hcrawl]
    exact ⟨rfl, rfl⟩

/-- Witness for C6: a concrete failed fetch is skipped, and a concrete
unreachable site yields `not_found_after_scan`. -/
theorem C6_fetch_failure_swallowed_witness :
    ((crawlLoop 2 5 noWorld 4 [("http://x.com".data, 0)] [] 0).hit =
        (crawlLoop 2 5 noWorld 3 [] [] 0).hit ∧
      (crawlLoop 2 5 noWorld 4 [("http://x.com".data, 0)] [] 0).scans =
        (crawlLoop 2 5 noWorld 3 [] [] 0).scans) ∧
    ((extract_instagram_info 2 5 noWorld 4 "down.example").status =
        "not_found_after_scan" ∧
      (extract_instagram_info 2 5 noWorld 4 "down.example").pages_scanned = 0) :=
  ⟨C6_fetch_failure_swallowed.1 2 5 noWorld 3 ("http://x.com".data) 0 [] [] 0 rfl,
   C6_fetch_failure_swallowed.2 2 5 noWorld 3 "down.example"
     (by decide) (by decide) (by decide) rfl⟩

end Insta

